import Mathlib

set_option maxHeartbeats 2000000
set_option maxRecDepth 4096

/-!
Shallow embedding of `src/app.py` (a Flask caching scraping proxy).

Strings are modelled as Lean `String` / `List Char`; the Python `re`
substitutions used by `clean_title` are embedded by a small backtracking
matcher in continuation-passing style whose combinators mirror the regex
constructs appearing in `TITLE_PATTERNS` (greedy star over a character
class, greedy plus with mandatory progress, ordered alternation, `^`/`$`
anchors with Python's end-of-string-or-final-newline rule for `$`,
`re.sub`'s left-to-right non-overlapping scan).  Network fetches and
BeautifulSoup DOM access are modelled by explicit input data (a response
outcome, a record of the attribute values the code reads, an oracle for
detail-page fetches).  Python truthiness on strings ("" is falsy) and on
optional values is rendered explicitly at every use site.
-/

/-- Python `str.strip()` / `\s` whitespace set (ASCII fragment: the inputs
the program manipulates are site titles; the Unicode extras never occur). -/
def isSpacePy (c : Char) : Bool :=
  (c == ' ') || (c == '\t') || (c == '\n') || (c == '\r') || (c == '\x0b') || (c == '\x0c')

/-- Python `str.strip()` on a character list. -/
def pyStrip (l : List Char) : List Char :=
  ((l.dropWhile isSpacePy).reverse.dropWhile isSpacePy).reverse

/-- Python `str.strip()` on a `String`. -/
def pyStripS (s : String) : String :=
  String.mk (pyStrip s.data)

/-- Python `str.split()` with no separator: split on whitespace runs,
dropping empty pieces. -/
def pySplitWs (l : List Char) : List (List Char) :=
  (l.foldr
    (fun c acc =>
      if isSpacePy c then [] :: acc
      else
        match acc with
        | t :: rest => (c :: t) :: rest
        | [] => [[c]])
    ([[]])).filter (fun t => ¬ t.isEmpty)

/-- Python `str.isdigit()` (ASCII digits; empty string is not a digit string). -/
def pyIsDigit (l : List Char) : Bool :=
  (¬ l.isEmpty) && l.all Char.isDigit

/-- Python `str.lower()` (ASCII). -/
def pyLower (s : String) : String :=
  String.mk (s.data.map Char.toLower)

/-- The vowel class of the regex `[AEIOUaeiou]` in `looks_like_code`. -/
def isVowel (c : Char) : Bool :=
  (c == 'A') || (c == 'E') || (c == 'I') || (c == 'O') || (c == 'U') ||
  (c == 'a') || (c == 'e') || (c == 'i') || (c == 'o') || (c == 'u')

/-! ## A small backtracking matcher for the `TITLE_PATTERNS` regexes

A matcher receives the absolute position, the remaining characters, and a
continuation; it reports the first overall match end (in Python's
backtracking order: greedy repetition, leftmost alternative first). -/

/-- CPS matcher: position, remaining input, continuation. -/
abbrev Matcher : Type :=
  Nat → List Char → (Nat → List Char → Option Nat) → Option Nat

/-- The empty regex. -/
def mEps : Matcher := fun pos rest k => k pos rest

/-- A regex with no match. -/
def mFail : Matcher := fun _ _ _ => none

/-- A literal character. -/
def mLit (c : Char) : Matcher := fun pos rest k =>
  match rest with
  | [] => none
  | r :: rs => if r == c then k (pos + 1) rs else none

/-- A literal character under `re.IGNORECASE`. -/
def mLitCI (c : Char) : Matcher := fun pos rest k =>
  match rest with
  | [] => none
  | r :: rs => if r.toLower == c.toLower then k (pos + 1) rs else none

/-- A character class. -/
def mCls (p : Char → Bool) : Matcher := fun pos rest k =>
  match rest with
  | [] => none
  | r :: rs => if p r then k (pos + 1) rs else none

/-- Sequencing. -/
def mSeq (m1 m2 : Matcher) : Matcher := fun pos rest k =>
  m1 pos rest (fun p r => m2 p r k)

/-- Ordered alternation (left preferred, as in Python). -/
def mAlt (m1 m2 : Matcher) : Matcher := fun pos rest k =>
  (m1 pos rest k) <|> (m2 pos rest k)

/-- Sequence of a list of matchers. -/
def mSeqs (ms : List Matcher) : Matcher := ms.foldr mSeq mEps

/-- Ordered alternation of a list of matchers. -/
def mAlts (ms : List Matcher) : Matcher :=
  match ms with
  | [] => mFail
  | m :: rest => rest.foldl mAlt m

/-- A literal string. -/
def mStr (s : String) : Matcher := mSeqs (s.data.map mLit)

/-- A literal string under `re.IGNORECASE`. -/
def mStrCI (s : String) : Matcher := mSeqs (s.data.map mLitCI)

/-- Greedy `?`. -/
def mOpt (m : Matcher) : Matcher := fun pos rest k =>
  (m pos rest k) <|> k pos rest

/-- Greedy star over a character class (`\s*`, `.*`): longest first,
backtracking one character at a time. -/
def mStarClsAux (p : Char → Bool) : Nat → List Char → (Nat → List Char → Option Nat) → Option Nat
  | pos, [], k => k pos []
  | pos, c :: cs, k =>
    if p c then (mStarClsAux p (pos + 1) cs k) <|> k pos (c :: cs)
    else k pos (c :: cs)

/-- Greedy star over a character class. -/
def mStarCls (p : Char → Bool) : Matcher := fun pos rest k => mStarClsAux p pos rest k

/-- Exactly `n` characters of a class (`\d{4}`). -/
def mRepChr (p : Char → Bool) : Nat → Matcher
  | 0 => mEps
  | n + 1 => mSeq (mCls p) (mRepChr p n)

/-- Greedy `+` of a group, with fuel bounding the iteration count; every
group this is used on consumes at least one character per iteration, and
an iteration without progress stops the repetition (as Python does for an
empty repeat). -/
def mPlusAux (m : Matcher) : Nat → Nat → List Char → (Nat → List Char → Option Nat) → Option Nat
  | 0, pos, rest, k => m pos rest k
  | fuel + 1, pos, rest, k =>
    m pos rest (fun p2 r2 =>
      if pos < p2 then (mPlusAux m fuel p2 r2 k) <|> k p2 r2 else k p2 r2)

/-- Greedy `+` of a group. -/
def mPlus (m : Matcher) : Matcher := fun pos rest k =>
  mPlusAux m rest.length pos rest k

/-- `^` (no `re.MULTILINE`: only the absolute start of the string). -/
def mBol : Matcher := fun pos rest k =>
  if pos = 0 then k pos rest else none

/-- `$` (no `re.MULTILINE`: end of string, or just before a final newline). -/
def mEol : Matcher := fun pos rest k =>
  if rest = [] ∨ rest = [('\n')] then k pos rest else none

/-- First match end at this exact position, if any. -/
def tryMatchAt (m : Matcher) (pos : Nat) (rest : List Char) : Option Nat :=
  m pos rest (fun p _ => some p)

/-- `re.sub(pattern, '', s)`: scan left to right, removing each leftmost
non-overlapping match (every pattern in `TITLE_PATTERNS` matches at least
one character, so the empty-match advance step keeps the character).  The
fuel is the remaining length: every step consumes at least one character. -/
def subScan (m : Matcher) : Nat → List Char → Nat → List Char
  | 0, l, _ => l
  | fuel + 1, l, pos =>
    match l with
    | [] => []
    | c :: cs =>
      match tryMatchAt m pos (c :: cs) with
      | some e =>
        if pos < e then subScan m fuel (List.drop (e - pos) (c :: cs)) e
        else c :: subScan m fuel cs (pos + 1)
      | none => c :: subScan m fuel cs (pos + 1)

/-- `pattern.sub('', s)` over the whole string. -/
def subAll (m : Matcher) (l : List Char) : List Char := subScan m l.length l 0

/-! ## `TITLE_PATTERNS` -/

/-- `\s*` -/
def mSpaceStar : Matcher := mStarCls isSpacePy

/-- `.*` (no `re.DOTALL`: anything but a newline). -/
def mDotStar : Matcher := mStarCls (fun c => ¬ (c == '\n'))

/-- `\(\d{4}\)` -/
def mYearParen : Matcher := mSeqs [mLit ('('), mRepChr Char.isDigit 4, mLit (')')]

/-- The language alternation `(?:Tamil|Hindi|Telugu|Malayalam|Kannada|Bengali|Marathi|Punjabi)`. -/
def LANG_WORDS : List String :=
  [("Tamil"), ("Hindi"), ("Telugu"), ("Malayalam"), ("Kannada"), ("Bengali"), ("Marathi"), ("Punjabi")]

/-- Ordered alternation over the language words. -/
def mLangAlt : Matcher := mAlts (LANG_WORDS.map mStrCI)

/-- `(?:HD|SD)` -/
def mHdSd : Matcher := mAlt (mStrCI ("HD")) (mStrCI ("SD"))

/-- Pattern 1: `\s*\(\d{4}\)\s*(?:Tamil|…)\s*in\s*(?:HD|SD)\s*-\s*Einthusan.*$`, IGNORECASE. -/
def pat1 : Matcher :=
  mSeqs [mSpaceStar, mYearParen, mSpaceStar, mLangAlt, mSpaceStar, mStrCI ("in"),
    mSpaceStar, mHdSd, mSpaceStar, mLit ('-'), mSpaceStar, mStrCI ("Einthusan"), mDotStar, mEol]

/-- Pattern 2: `\s*\(\d{4}\)\s*(?:(?:Tamil|…)\s*(?:,)?\s*)+\s*in\s*(?:HD|SD)\s*-\s*Einthusan.*$`, IGNORECASE. -/
def pat2 : Matcher :=
  mSeqs [mSpaceStar, mYearParen, mSpaceStar,
    mPlus (mSeqs [mLangAlt, mSpaceStar, mOpt (mLit (',')), mSpaceStar]),
    mSpaceStar, mStrCI ("in"), mSpaceStar, mHdSd, mSpaceStar, mLit ('-'),
    mSpaceStar, mStrCI ("Einthusan"), mDotStar, mEol]

/-- Pattern 3: `\s*(?:Tamil|…)\s*in\s*(?:HD|SD)\s*-\s*Einthusan.*$`, IGNORECASE. -/
def pat3 : Matcher :=
  mSeqs [mSpaceStar, mLangAlt, mSpaceStar, mStrCI ("in"), mSpaceStar, mHdSd,
    mSpaceStar, mLit ('-'), mSpaceStar, mStrCI ("Einthusan"), mDotStar, mEol]

/-- Pattern 4: `^Einthusan\s*[-–—]\s*`, IGNORECASE. -/
def pat4 : Matcher :=
  mSeqs [mBol, mStrCI ("Einthusan"), mSpaceStar,
    mCls (fun c => (c == '-') || (c == '–') || (c == '—')), mSpaceStar]

/-- Pattern 5: `\s*\(\d{4}\)\s*$` (the only case-sensitive pattern; it has no letters). -/
def pat5 : Matcher := mSeqs [mSpaceStar, mYearParen, mSpaceStar, mEol]

/-- Pattern 6: `\s*\[(Tamil|…)\]`, IGNORECASE. -/
def pat6 : Matcher := mSeqs [mSpaceStar, mLit ('['), mLangAlt, mLit (']')]

/-- Pattern 7: `\|\s*Einthusan.*$`, IGNORECASE. -/
def pat7 : Matcher := mSeqs [mLit ('|'), mSpaceStar, mStrCI ("Einthusan"), mDotStar, mEol]

/-- Pattern 8: `Watch Full Movie Online Free$`, IGNORECASE. -/
def pat8 : Matcher := mSeqs [mStrCI ("Watch Full Movie Online Free"), mEol]

/-- Pattern 9: `Online Watch Free (?:HD|SD)$`, IGNORECASE. -/
def pat9 : Matcher := mSeqs [mStrCI ("Online Watch Free "), mHdSd, mEol]

/-- Pattern 10: `Free Movies Online$`, IGNORECASE. -/
def pat10 : Matcher := mSeqs [mStrCI ("Free Movies Online"), mEol]

/-- The ordered pattern list of `app.py`. -/
def TITLE_PATTERNS : List Matcher :=
  [pat1, pat2, pat3, pat4, pat5, pat6, pat7, pat8, pat9, pat10]

/-- `clean_title`: `None`/empty input yields `None`; otherwise strip, apply
each pattern substitution in order, strip again. -/
def clean_title : Option String → Option String
  | none => none
  | some t =>
    if t = "" then none
    else some (String.mk (pyStrip (TITLE_PATTERNS.foldl (fun acc m => subAll m acc) (pyStrip t.data))))

/-! ## `looks_like_code` -/

/-- The body of `looks_like_code` after stripping. -/
def looksLikeCodeCore (s2 : List Char) : Bool :=
  if s2.isEmpty then false
  else if pyIsDigit s2 then false
  else
    let one_token := (pySplitWs s2).length == 1
    let simple := s2.all (fun c => c.isAlpha || c.isDigit)
    let shortish := (2 ≤ s2.length) && (s2.length ≤ 8)
    let has_digit := s2.any Char.isDigit
    let alpha := s2.filter Char.isAlpha
    let no_vowel := if alpha.isEmpty then false else ¬ (alpha.any isVowel)
    one_token && simple && shortish && (has_digit || no_vowel)

/-- `looks_like_code`: detect short alphanumeric placeholder codes. -/
def looks_like_code : Option String → Bool
  | none => false
  | some s => if s = "" then false else looksLikeCodeCore (pyStrip s.data)


/-! ## `correct_spelling` (difflib `get_close_matches` with `n=1`, `cutoff=0.7`)

`difflib.SequenceMatcher` is embedded with exact rationals in place of
Python floats (all ratios here have tiny numerators and denominators, far
from any float-rounding boundary).  Autojunk (active only when the second
sequence has at least 200 elements) is omitted: `get_close_matches` first
gates on `real_quick_ratio`, which for a 200+-character input against the
at-most-9-character language names is below any 0.7 cutoff, so the
autojunk branch can never influence the returned value.  The junk/popular
extension loops of `find_longest_match` are no-ops when both sets are
empty, so only the core dynamic program is embedded. -/

/-- The `LANGUAGE_CODES` dict (insertion order preserved, as in Python). -/
def LANGUAGE_CODES : List (String × String) :=
  [(("tamil"), ("tamil")), (("hindi"), ("hindi")), (("telugu"), ("telugu")),
   (("malayalam"), ("malayalam")), (("kannada"), ("kannada")), (("bengali"), ("bengali")),
   (("marathi"), ("marathi")), (("punjabi"), ("punjabi"))]

/-- `LANGUAGE_CODES.keys()`. -/
def LANG_OPTIONS : List String := LANGUAGE_CODES.map (fun p => p.1)

/-- `b2j[c]`: ascending indices of `c` in `b`. -/
def indicesOf (c : Char) (b : List Char) : List Nat :=
  (b.enum.filter (fun p => p.2 == c)).map (fun p => p.1)

/-- One outer-loop step (`for i in range(alo, ahi)`) of
`SequenceMatcher.find_longest_match`: the state is the previous row's
`j2len` (total function, absent keys are 0) and the best `(i, j, size)`. -/
def flmStep (a b : List Char) (blo bhi : Nat)
    (st : (Nat → Nat) × (Nat × Nat × Nat)) (i : Nat) : (Nat → Nat) × (Nat × Nat × Nat) :=
  let j2len := st.1
  let js := (indicesOf (a.getD i (' ')) b).filter (fun j => blo ≤ j && j < bhi)
  js.foldl
    (fun (acc : (Nat → Nat) × (Nat × Nat × Nat)) j =>
      let k := if j = 0 then 1 else j2len (j - 1) + 1
      let newj2len := fun x => if x = j then k else acc.1 x
      let best := acc.2
      let best2 := if k > best.2.2 then (i + 1 - k, j + 1 - k, k) else best
      (newj2len, best2))
    ((fun _ => 0), st.2)

/-- `SequenceMatcher.find_longest_match` (no junk, no popular elements). -/
def find_longest_match (a b : List Char) (alo ahi blo bhi : Nat) : Nat × Nat × Nat :=
  ((List.range' alo (ahi - alo)).foldl (flmStep a b blo bhi) ((fun _ => 0), (alo, blo, 0))).2

/-- Total size of the matching blocks (`get_matching_blocks`, summed): the
recursion around each longest match, with fuel bounding the depth (every
recursive call is on a strictly smaller region). -/
def matchingTotal (a b : List Char) : Nat → Nat → Nat → Nat → Nat → Nat
  | 0, _, _, _, _ => 0
  | fuel + 1, alo, ahi, blo, bhi =>
    let r := find_longest_match a b alo ahi blo bhi
    if r.2.2 = 0 then 0
    else
      r.2.2 + matchingTotal a b fuel alo r.1 blo r.2.1 +
        matchingTotal a b fuel (r.1 + r.2.2) ahi (r.2.1 + r.2.2) bhi

/-- `difflib._calculate_ratio` (`2.0 * matches / length`, as an exact
rational: `mkRat (2 * mtc) len` is that quotient). -/
def calculateRatio (mtc len : Nat) : ℚ :=
  if len = 0 then 1 else mkRat ((2 * mtc : Nat) : Int) len

/-- `SequenceMatcher.ratio()`. -/
def ratioSM (a b : List Char) : ℚ :=
  calculateRatio (matchingTotal a b (a.length + b.length + 1) 0 a.length 0 b.length)
    (a.length + b.length)

/-- The match count of `SequenceMatcher.quick_ratio()` (multiset
intersection, computed by the same availability-count fold as Python). -/
def quickMatches (a b : List Char) : Nat :=
  (a.foldl
    (fun (st : (Char → Option Int) × Nat) c =>
      let numb : Int := match st.1 c with | some v => v | none => ((b.count c : Nat) : Int)
      ((fun x => if x = c then some (numb - 1) else st.1 x),
        if numb > 0 then st.2 + 1 else st.2))
    ((fun _ => none), 0)).2

/-- `SequenceMatcher.quick_ratio()`. -/
def quick_ratio (a b : List Char) : ℚ :=
  calculateRatio (quickMatches a b) (a.length + b.length)

/-- `SequenceMatcher.real_quick_ratio()`. -/
def real_quick_ratio (a b : List Char) : ℚ :=
  calculateRatio (min a.length b.length) (a.length + b.length)

/-- The 0.7 cutoff of `correct_spelling`. -/
def CUTOFF : ℚ := mkRat 7 10

/-- The three-stage cutoff gate of `get_close_matches` (`x` is the
candidate, i.e. `seq1`; `w` the lowered user input, i.e. `seq2`). -/
def clearsCutoff (x : String) (w : List Char) : Bool :=
  decide (real_quick_ratio x.data w ≥ CUTOFF) &&
  decide (quick_ratio x.data w ≥ CUTOFF) &&
  decide (ratioSM x.data w ≥ CUTOFF)

/-- The `result` list of `get_close_matches`: `(ratio, candidate)` pairs
that clear the gate, in `possibilities` order. -/
def scoredList (w : List Char) : List (ℚ × String) :=
  LANG_OPTIONS.filterMap (fun x => if clearsCutoff x w then some (ratioSM x.data w, x) else none)

/-- `heapq.nlargest(1, result)` = `max(result)`: first maximum under the
lexicographic `(score, string)` order Python uses on the pairs. -/
def pickBest (s : ℚ × String) (rest : List (ℚ × String)) : ℚ × String :=
  rest.foldl (fun best c => if best.1 < c.1 ∨ (best.1 = c.1 ∧ best.2 < c.2) then c else best) s

/-- `correct_spelling`: lowercase, fuzzy-match against the language keys. -/
def correct_spelling (user_input : String) : Option String :=
  match scoredList ((pyLower user_input).data) with
  | [] => none
  | s :: rest => some (pickBest s rest).2


/-! ## `fetch_page`

The network interaction is modelled by its outcome: either
`requests.Session.get` raised a `RequestException` (timeout, connection
error, too many redirects), or it returned a final response with a status
code and a byte body.  `raise_for_status` raises `HTTPError` — a
`RequestException`, caught by the same handler — exactly for client
(4xx) and server (5xx) error statuses. -/

/-- Outcome of `SESSION.get(url, timeout=REQUEST_TIMEOUT)`. -/
inductive FetchOutcome : Type
  | exn : FetchOutcome
  | resp : Nat → List Nat → FetchOutcome
deriving DecidableEq

/-- `fetch_page` given the network outcome for its URL. -/
def fetch_page : FetchOutcome → Option (List Nat)
  | FetchOutcome.exn => none
  | FetchOutcome.resp status body =>
    if 400 ≤ status ∧ status < 600 then none else some body

/-! ## `extract_video_url`

The fetched-and-parsed detail page is modelled by the data the code
reads: whether the element with id `UIVideoPlayer` exists, and its
`data-mp4-link` attribute. -/

/-- The `UIVideoPlayer` element: its `data-mp4-link` attribute, if set. -/
structure PlayerEl : Type where
  dataMp4Link : Option String
deriving DecidableEq

/-- A fetched detail page as `extract_video_url` reads it. -/
structure VideoPage : Type where
  player : Option PlayerEl
deriving DecidableEq

/-- Python `s.split(sep, 1)` restricted to the first split: the part
before and after the first occurrence of `sep`, or `none` when `sep`
does not occur (`sep in s` is exactly when this is `some`). -/
def splitFirst (sep : List Char) : List Char → Option (List Char × List Char)
  | [] => if sep.isEmpty then some ([], []) else none
  | c :: cs =>
    if sep.isPrefixOf (c :: cs) then some ([], (c :: cs).drop sep.length)
    else (splitFirst sep cs).map (fun pr => (c :: pr.1, pr.2))

/-- `extract_video_url` given the fetched page content (`none` models a
failed fetch or empty content).  The `try`/`except` around the body can
only forward the computed result here: a total embedding has no
unexpected faults, and the `except` arm returns `None` like every
non-matching branch. -/
def extract_video_url (content : Option VideoPage) : Option String :=
  match content with
  | none => none
  | some page =>
    match page.player with
    | none => none
    | some player =>
      match player.dataMp4Link with
      | none => none
      | some mp4_link =>
        if mp4_link = "" then none
        else
          match splitFirst (("etv").data) mp4_link.data with
          | some pr => some (String.mk ((("https://cdn1.einthusan.io/etv").data) ++ pr.2))
          | none => none

/-! ## DOM model for title extraction and the listing parser -/

/-- A fetched-and-parsed page as `try_extract_title_from_dom` reads it:
the `og:title` meta content, the `<title>` text, the first `<h1>` text.
`none` = element (or attribute) absent; `some ""` = present but empty. -/
structure DomPage : Type where
  ogTitle : Option String
  title : Option String
  h1 : Option String
deriving DecidableEq

/-- One candidate step of `try_extract_title_from_dom`: the element must
be present with truthy text, and its cleaned title must be truthy. -/
def checkCand (v : Option String) : Option String :=
  match v with
  | none => none
  | some c =>
    if c = "" then none
    else
      match clean_title (some c) with
      | none => none
      | some cleaned => if cleaned = "" then none else some cleaned

/-- `try_extract_title_from_dom`: og:title, then `<title>`, then `<h1>`. -/
def try_extract_title_from_dom (p : DomPage) : Option String :=
  (checkCand p.ogTitle) <|> (checkCand p.title) <|> (checkCand p.h1)

/-- `get_title_from_movie_page`, over an oracle combining `fetch_page`
and HTML parsing (`none` models a failed fetch or empty content). -/
def get_title_from_movie_page (fetchDom : String → Option DomPage) (page_url : String) :
    Option String :=
  match fetchDom page_url with
  | none => none
  | some soup => try_extract_title_from_dom soup

/-- The `<a>` element of a movie block: its `href` attribute. -/
structure AnchorEl : Type where
  href : Option String
deriving DecidableEq

/-- The `<img>` element of a movie block: the attributes the code reads. -/
structure ImgEl : Type where
  alt : Option String
  title : Option String
  src : Option String
  dataSrc : Option String
  dataOriginal : Option String
deriving DecidableEq

/-- A `div.block1` movie block: its first `<a>`, first `<img>`, and the
text of its `div.title` sub-element if that element exists. -/
structure MovieBlock : Type where
  a : Option AnchorEl
  img : Option ImgEl
  titleDiv : Option String
deriving DecidableEq

/-- A produced movie record. -/
structure MovieRecord : Type where
  title : String
  img_url : String
  page_url : String
deriving DecidableEq

/-- The candidate list of `process_movie_block`: `div.title` text, `img`
alt, `img` title — each only when present and truthy, stripped. -/
def candTexts (b : MovieBlock) (img : ImgEl) : List String :=
  (match b.titleDiv with
   | some t => if t = "" then [] else [pyStripS t]
   | none => []) ++
  (match img.alt with
   | some t => if t = "" then [] else [pyStripS t]
   | none => []) ++
  (match img.title with
   | some t => if t = "" then [] else [pyStripS t]
   | none => [])

/-- The candidate-selection loop: first candidate whose cleaned title is
truthy, longer than 2 characters, and not purely digits. -/
def selectTitle : List String → Option String
  | [] => none
  | c :: cs =>
    match clean_title (some c) with
    | none => selectTitle cs
    | some cleaned =>
      if cleaned ≠ "" ∧ 2 < cleaned.length ∧ ¬ (pyIsDigit cleaned.data = true)
      then some cleaned
      else selectTitle cs

/-- The fallback condition `not title or len(title) < 3 or looks_like_code(title)`. -/
def fallbackNeeded (b : MovieBlock) (img : ImgEl) : Bool :=
  match selectTitle (candTexts b img) with
  | none => true
  | some t => decide (t = "") || decide (t.length < 3) || looks_like_code (some t)

/-- The fallback title: detail-page extraction if truthy, else the sentinel. -/
def fallbackTitle (fetchDom : String → Option DomPage) (url : String) : String :=
  match get_title_from_movie_page fetchDom url with
  | some t => if t = "" then ("Untitled Movie") else t
  | none => ("Untitled Movie")

/-- The Python `or`-chain `img.get('src') or img.get('data-src') or
img.get('data-original') or ''`: first present truthy value. -/
def firstTruthy : List (Option String) → String
  | [] => ""
  | v :: rest =>
    match v with
    | some s => if s = "" then firstTruthy rest else s
    | none => firstTruthy rest

/-- `process_movie_block`, over the detail-page oracle. -/
def process_movie_block (fetchDom : String → Option DomPage) (b : MovieBlock) :
    Option MovieRecord :=
  match b.a, b.img with
  | some a, some img =>
    let page_url_full := ("https://einthusan.tv") ++ a.href.getD ""
    let title :=
      if fallbackNeeded b img then fallbackTitle fetchDom page_url_full
      else (selectTitle (candTexts b img)).getD ""
    let img_url0 := firstTruthy [img.src, img.dataSrc, img.dataOriginal]
    let img_url := if (("//").data).isPrefixOf img_url0.data
      then ("https:") ++ img_url0 else img_url0
    some { title := title, img_url := img_url, page_url := page_url_full }
  | _, _ => none

/-- `fetch_movies_by_url`, over the listing content (`none` models a
failed fetch or empty content; otherwise the parsed `div.block1` list). -/
def fetch_movies_by_url (fetchDom : String → Option DomPage)
    (content : Option (List MovieBlock)) : List MovieRecord :=
  match content with
  | none => []
  | some blocks => blocks.filterMap (process_movie_block fetchDom)


/-! ## Helper lemmas -/

theorem digit_not_space (c : Char) (h : c.isDigit = true) : isSpacePy c = false := by
  cases hb : isSpacePy c with
  | false => rfl
  | true =>
    exfalso
    simp only [isSpacePy, Bool.or_eq_true, beq_iff_eq] at hb
    rcases hb with ((((rfl | rfl) | rfl) | rfl) | rfl) | rfl <;> exact absurd h (by decide)

theorem dropWhile_space_of_digits (l : List Char) (h : l.all Char.isDigit = true) :
    l.dropWhile isSpacePy = l := by
  cases l with
  | nil => rfl
  | cons c cs =>
    simp only [List.all_cons, Bool.and_eq_true] at h
    simp [List.dropWhile_cons, digit_not_space c h.1]

theorem pyStrip_of_digits (l : List Char) (h : l.all Char.isDigit = true) : pyStrip l = l := by
  unfold pyStrip
  rw [dropWhile_space_of_digits l h, dropWhile_space_of_digits l.reverse (by simpa using h),
    List.reverse_reverse]

theorem splitFirst_eq (sep : List Char) :
    ∀ l pre post : List Char, splitFirst sep l = some (pre, post) → l = pre ++ sep ++ post := by
  intro l
  induction l with
  | nil =>
    intro pre post h
    by_cases hsep : sep.isEmpty
    · have hsep' : sep = [] := List.isEmpty_iff.mp hsep
      subst hsep'
      simp [splitFirst] at h
      simp [h.1, h.2]
    · simp [splitFirst, hsep] at h
  | cons c cs ih =>
    intro pre post h
    by_cases hp : sep.isPrefixOf (c :: cs)
    · rw [splitFirst, if_pos hp] at h
      obtain ⟨h1, h2⟩ := Prod.mk.inj (Option.some.inj h)
      subst h1
      subst h2
      have hpre := List.prefix_iff_eq_append.mp (List.isPrefixOf_iff_prefix.mp hp)
      simpa using hpre.symm
    · rw [splitFirst, if_neg hp] at h
      cases hc : splitFirst sep cs with
      | none => rw [hc] at h; simp at h
      | some pr =>
        obtain ⟨p1, p2⟩ := pr
        rw [hc] at h
        simp only [Option.map_some'] at h
        obtain ⟨h1, h2⟩ := Prod.mk.inj (Option.some.inj h)
        subst h2
        have hcs := ih p1 p2 (by rw [hc])
        rw [← h1]
        simp [hcs]

theorem selectTitle_some {cs : List String} {t : String} (h : selectTitle cs = some t) :
    t ≠ "" ∧ 2 < t.length ∧ pyIsDigit t.data = false := by
  induction cs with
  | nil => simp [selectTitle] at h
  | cons c cs ih =>
    rw [selectTitle] at h
    split at h
    · exact ih h
    · split at h
      next hcond =>
        have ht := Option.some.inj h
        subst ht
        exact ⟨hcond.1, hcond.2.1, by simpa using hcond.2.2⟩
      next hcond => exact ih h

theorem checkCand_ne_empty {v : Option String} {r : String} (h : checkCand v = some r) :
    r ≠ "" := by
  cases v with
  | none => simp [checkCand] at h
  | some c =>
    simp only [checkCand] at h
    split at h
    · simp at h
    · split at h
      · simp at h
      · split at h
        · simp at h
        next he =>
          have hr := Option.some.inj h
          subst hr
          exact he

theorem try_extract_ne_empty {p : DomPage} {r : String}
    (h : try_extract_title_from_dom p = some r) : r ≠ "" := by
  simp only [try_extract_title_from_dom] at h
  cases h1 : checkCand p.ogTitle with
  | some v =>
    rw [h1] at h
    simp at h
    subst h
    exact checkCand_ne_empty h1
  | none =>
    rw [h1] at h
    simp at h
    cases h2 : checkCand p.title with
    | some v =>
      rw [h2] at h
      simp at h
      subst h
      exact checkCand_ne_empty h2
    | none =>
      rw [h2] at h
      simp at h
      exact checkCand_ne_empty h

theorem fallbackTitle_ne_empty (fetchDom : String → Option DomPage) (url : String) :
    fallbackTitle fetchDom url ≠ "" := by
  unfold fallbackTitle
  cases get_title_from_movie_page fetchDom url with
  | none => decide
  | some t =>
    by_cases ht : t = ""
    · simp [ht]
    · simp [ht]

theorem pickBest_spec (rest : List (ℚ × String)) :
    ∀ s : ℚ × String,
      pickBest s rest ∈ s :: rest ∧ ∀ p ∈ s :: rest, p.1 ≤ (pickBest s rest).1 := by
  induction rest with
  | nil =>
    intro s
    refine ⟨by simp [pickBest], ?_⟩
    intro p hp
    have hps : p = s := by simpa using hp
    subst hps
    exact le_refl _
  | cons c cs ih =>
    intro s
    have hstep : pickBest s (c :: cs) =
        pickBest (if s.1 < c.1 ∨ (s.1 = c.1 ∧ s.2 < c.2) then c else s) cs := rfl
    by_cases hc : s.1 < c.1 ∨ (s.1 = c.1 ∧ s.2 < c.2)
    · rw [hstep, if_pos hc]
      obtain ⟨hmem, hbd⟩ := ih c
      refine ⟨List.mem_cons_of_mem s hmem, ?_⟩
      intro p hp
      rcases List.mem_cons.mp hp with rfl | hp'
      · have hsc : p.1 ≤ c.1 := by
          rcases hc with hlt | heq
          · exact le_of_lt hlt
          · exact le_of_eq heq.1
        exact le_trans hsc (hbd c (List.mem_cons_self c cs))
      · exact hbd p hp'
    · rw [hstep, if_neg hc]
      obtain ⟨hmem, hbd⟩ := ih s
      constructor
      · rcases List.mem_cons.mp hmem with hh | hh
        · rw [hh]
          exact List.mem_cons_self s (c :: cs)
        · exact List.mem_cons_of_mem s (List.mem_cons_of_mem c hh)
      · intro p hp
        rcases List.mem_cons.mp hp with rfl | hp'
        · exact hbd p (List.mem_cons_self p cs)
        · rcases List.mem_cons.mp hp' with rfl | hp''
          · have hcls : p.1 ≤ s.1 := le_of_not_lt (fun hlt => hc (Or.inl hlt))
            exact le_trans hcls (hbd s (List.mem_cons_self s cs))
          · exact hbd p (List.mem_cons_of_mem s hp'')

theorem mem_scoredList {w : List Char} {r : ℚ} {x : String} :
    (r, x) ∈ scoredList w ↔
      (x ∈ LANG_OPTIONS ∧ clearsCutoff x w = true ∧ r = ratioSM x.data w) := by
  simp only [scoredList, List.mem_filterMap]
  constructor
  · rintro ⟨y, hy, hf⟩
    by_cases hcl : clearsCutoff y w
    · rw [if_pos hcl] at hf
      obtain ⟨h1, h2⟩ := Prod.mk.inj (Option.some.inj hf)
      subst h2
      exact ⟨hy, hcl, h1.symm⟩
    · rw [if_neg hcl] at hf
      simp at hf
  · rintro ⟨hx, hcl, rfl⟩
    exact ⟨x, hx, by rw [if_pos hcl]⟩

theorem filter_alpha_ne_nil (l : List Char) (hne : l ≠ [])
    (hall : l.all (fun c => c.isAlpha || c.isDigit) = true)
    (hnd : l.any Char.isDigit = false) : l.filter Char.isAlpha ≠ [] := by
  cases l with
  | nil => exact absurd rfl hne
  | cons c cs =>
    simp only [List.all_cons, Bool.and_eq_true, Bool.or_eq_true] at hall
    simp only [List.any_cons, Bool.or_eq_false_iff] at hnd
    have hca : c.isAlpha = true := by
      rcases hall.1 with ha | hd
      · exact ha
      · exact absurd hd (by simp [hnd.1])
    simp [List.filter_cons, hca]

theorem looksLikeCodeCore_iff (l : List Char) :
    looksLikeCodeCore l = true ↔
      ((pySplitWs l).length = 1 ∧
       l.all (fun c => c.isAlpha || c.isDigit) = true ∧
       2 ≤ l.length ∧ l.length ≤ 8 ∧
       (l.any Char.isDigit = true ∨ (l.filter Char.isAlpha).any isVowel = false) ∧
       pyIsDigit l = false) := by
  by_cases h0 : l.isEmpty
  · have hl : l = [] := List.isEmpty_iff.mp h0
    subst hl
    decide
  · have h0' : l.isEmpty = false := Bool.not_eq_true _ |>.mp h0
    have hne : l ≠ [] := fun hh => h0 (by simp [hh])
    by_cases hd : pyIsDigit l = true
    · simp [looksLikeCodeCore, h0', hd]
    · have hd' : pyIsDigit l = false := Bool.not_eq_true _ |>.mp hd
      simp only [looksLikeCodeCore, h0', hd', Bool.false_eq_true, if_false,
        Bool.and_eq_true, Bool.or_eq_true, beq_iff_eq, decide_eq_true_eq, hd',
        and_true]
      constructor
      · rintro ⟨⟨⟨h1, h2⟩, h3⟩, h4⟩
        refine ⟨h1, h2, ?_, ?_, ?_⟩
        · exact h3.1
        · exact h3.2
        · rcases h4 with h4 | h4
          · exact Or.inl h4
          · right
            by_cases hae : (l.filter Char.isAlpha).isEmpty
            · rw [if_pos hae] at h4
              exact absurd h4 (by simp)
            · rw [if_neg hae] at h4
              simpa using h4
      · rintro ⟨h1, h2, h3, h4, h5⟩
        refine ⟨⟨⟨h1, h2⟩, ?_⟩, ?_⟩
        · simp [h3, h4]
        · rcases h5 with h5 | h5
          · exact Or.inl h5
          · by_cases hdg : l.any Char.isDigit = true
            · exact Or.inl hdg
            · right
              have hdg' : l.any Char.isDigit = false := Bool.not_eq_true _ |>.mp hdg
              have hfa := filter_alpha_ne_nil l hne h2 hdg'
              have hae : (l.filter Char.isAlpha).isEmpty = false := by
                simpa [List.isEmpty_iff] using hfa
              rw [if_neg (by simp [hae])]
              simpa using h5

/-! ## Claim theorems -/

/-- Claim C2 (counterexample): the Title Normalizer is not idempotent on
every input: with two trailing parenthesized years, each application of
`clean_title` removes only the last one, so the first and second results
differ. -/
theorem clean_title_not_idempotent_cex :
    clean_title (clean_title (some ("Raja (2001) (2002)"))) ≠
      clean_title (some ("Raja (2001) (2002)")) := by decide

/-- Claim C2 (amended): `clean_title` is idempotent on the spec's tested
normalizer inputs ("Vikram (2022) Tamil in HD - Einthusan" and
"96 (2018)"), though not on every input. -/
theorem clean_title_idempotent_spec_inputs :
    clean_title (clean_title (some ("Vikram (2022) Tamil in HD - Einthusan"))) =
      clean_title (some ("Vikram (2022) Tamil in HD - Einthusan")) ∧
    clean_title (clean_title (some ("96 (2018)"))) =
      clean_title (some ("96 (2018)")) := by decide

/-- Claim C3: on "Vikram (2022) Tamil in HD - Einthusan" the normalizer
returns exactly "Vikram", and the first (composite year+language+quality+
brand) pattern alone already removes the whole noisy tail in one step. -/
theorem clean_title_vikram_composite :
    clean_title (some ("Vikram (2022) Tamil in HD - Einthusan")) = some ("Vikram") ∧
    subAll pat1 (pyStrip (("Vikram (2022) Tamil in HD - Einthusan").data)) = ("Vikram").data := by
  decide

/-- Claim C5 (counterexample): a final 304 response has a non-2xx status,
yet `fetch_page` returns its body bytes rather than absent —
`raise_for_status` only raises for 4xx/5xx statuses. -/
theorem fetch_page_non2xx_bytes_cex :
    fetch_page (FetchOutcome.resp 304 [1, 2]) = some [1, 2] ∧ ¬ (200 ≤ 304 ∧ 304 < 300) := by
  decide

/-- Claim C5 (amended): `fetch_page` returns absent on every network
error or timeout and on every 4xx/5xx response status, and never raises;
on any other final status (2xx, and also surviving 1xx/3xx responses) it
returns the raw response bytes. -/
theorem fetch_page_error_handling :
    fetch_page FetchOutcome.exn = none ∧
    (∀ (status : Nat) (body : List Nat), 400 ≤ status → status < 600 →
      fetch_page (FetchOutcome.resp status body) = none) ∧
    (∀ (status : Nat) (body : List Nat), status < 400 ∨ 600 ≤ status →
      fetch_page (FetchOutcome.resp status body) = some body) := by
  refine ⟨rfl, ?_, ?_⟩
  · intro status body h1 h2
    simp [fetch_page, h1, h2]
  · intro status body h
    have hn : ¬ (400 ≤ status ∧ status < 600) := by omega
    simp [fetch_page, hn]

/-- Claim C5 witness: a 404 yields absent, a 200 yields the bytes. -/
theorem fetch_page_error_handling_witness :
    fetch_page (FetchOutcome.resp 404 [9]) = none ∧
    fetch_page (FetchOutcome.resp 200 [7]) = some [7] :=
  ⟨fetch_page_error_handling.2.1 404 [9] (by decide) (by decide),
   fetch_page_error_handling.2.2 200 [7] (Or.inl (by decide))⟩

/-- Claim C6: every non-empty all-digit string is exempt from the Code
Detector, and the normalizer maps "96 (2018)" to exactly "96". -/
theorem pure_digits_not_code_and_96 :
    (∀ s : String, s ≠ "" → s.data.all Char.isDigit = true →
      looks_like_code (some s) = false) ∧
    clean_title (some ("96 (2018)")) = some ("96") := by
  refine ⟨?_, by decide⟩
  intro s hs hd
  simp only [looks_like_code]
  rw [if_neg hs, pyStrip_of_digits s.data hd]
  have hne : s.data ≠ [] := fun hh => hs (String.ext hh)
  have hni : s.data.isEmpty = false := by simpa [List.isEmpty_iff] using hne
  have hpd : pyIsDigit s.data = true := by simp [pyIsDigit, hni, hd]
  simp [looksLikeCodeCore, hni, hpd]

/-- Claim C6 witness: the pure-digit title "96" is not flagged. -/
theorem pure_digits_not_code_and_96_witness :
    looks_like_code (some ("96")) = false :=
  pure_digits_not_code_and_96.1 ("96") (by decide) (by decide)

/-- Claim C10: `clean_title` is absent only for absent/empty input (any
other input yields a present, possibly empty, string); all-noise inputs
yield the empty string; and the downstream consumers (the page-title
extractor steps and the listing candidate loop) never accept an empty
cleaned string. -/
theorem clean_title_empty_string_behavior :
    clean_title none = none ∧
    clean_title (some "") = none ∧
    (∀ t : String, t ≠ "" → (clean_title (some t)).isSome = true) ∧
    clean_title (some ("(2019)")) = some "" ∧
    clean_title (some ("Free Movies Online")) = some "" ∧
    (∀ (p : DomPage) (r : String), try_extract_title_from_dom p = some r → r ≠ "") ∧
    (∀ (cs : List String) (r : String), selectTitle cs = some r → r ≠ "") := by
  refine ⟨rfl, by decide, ?_, by decide, by decide, ?_, ?_⟩
  · intro t ht
    simp [clean_title, ht]
  · intro p r h
    exact try_extract_ne_empty h
  · intro cs r h
    exact (selectTitle_some h).1

/-- Claim C10 witness: a non-empty input has a present cleaned title. -/
theorem clean_title_empty_string_behavior_witness :
    (clean_title (some ("Raja"))).isSome = true :=
  clean_title_empty_string_behavior.2.2.1 ("Raja") (by decide)

/-- Claim C1 (counterexample): the trimmed input "53" satisfies every
condition of the claimed characterization (single token, solely letters
and digits, length 2 to 8, contains a digit), yet `looks_like_code`
returns false — the pure-digit exemption is missing from the claim; and
`looks_like_code` returns false for "MukD" (the letter u is a vowel),
contradicting the claimed example. -/
theorem looks_like_code_claim_cex :
    ((pySplitWs (pyStrip (("53").data))).length = 1 ∧
     (pyStrip (("53").data)).all (fun c => c.isAlpha || c.isDigit) = true ∧
     2 ≤ (pyStrip (("53").data)).length ∧ (pyStrip (("53").data)).length ≤ 8 ∧
     ((pyStrip (("53").data)).any Char.isDigit = true ∨
      ((pyStrip (("53").data)).filter Char.isAlpha).any isVowel = false)) ∧
    looks_like_code (some ("53")) = false ∧
    looks_like_code (some ("MukD")) = false := by decide

/-- Claim C1 (amended): `looks_like_code` returns true exactly when the
trimmed input is a single whitespace-delimited token, consists solely of
letters and digits, has length 2 to 8, either contains a digit or its
alphabetic-only subsequence contains no vowel, and does not consist
solely of digits; "53BA" is flagged, "Kairaj" is not, and "MukD" is not
(its letter u is a vowel and it has no digit). -/
theorem looks_like_code_characterization :
    (∀ s : String, looks_like_code (some s) = true ↔
      ((pySplitWs (pyStrip s.data)).length = 1 ∧
       (pyStrip s.data).all (fun c => c.isAlpha || c.isDigit) = true ∧
       2 ≤ (pyStrip s.data).length ∧ (pyStrip s.data).length ≤ 8 ∧
       ((pyStrip s.data).any Char.isDigit = true ∨
        ((pyStrip s.data).filter Char.isAlpha).any isVowel = false) ∧
       pyIsDigit (pyStrip s.data) = false)) ∧
    looks_like_code (some ("53BA")) = true ∧
    looks_like_code (some ("Kairaj")) = false ∧
    looks_like_code (some ("MukD")) = false := by
  refine ⟨?_, by decide, by decide, by decide⟩
  intro s
  by_cases hs : s = ""
  · subst hs
    decide
  · simp only [looks_like_code]
    rw [if_neg hs]
    exact looksLikeCodeCore_iff (pyStrip s.data)

/-- Claim C1 witness: the characterization applied at "53BA". -/
theorem looks_like_code_characterization_witness :
    (pySplitWs (pyStrip (("53BA").data))).length = 1 :=
  ((looks_like_code_characterization.1 ("53BA")).mp (by decide)).1

/-- Claim C4: `extract_video_url` is absent on a failed fetch, a missing
player element, a missing manifest attribute, or an attribute without
the "etv" marker; when the attribute contains "etv" it returns the fixed
CDN origin followed by the attribute content from the first "etv"
onward. -/
theorem extract_video_url_spec :
    extract_video_url none = none ∧
    (∀ page : VideoPage, page.player = none → extract_video_url (some page) = none) ∧
    (∀ (page : VideoPage) (player : PlayerEl), page.player = some player →
      player.dataMp4Link = none → extract_video_url (some page) = none) ∧
    (∀ (page : VideoPage) (player : PlayerEl) (link : String), page.player = some player →
      player.dataMp4Link = some link → splitFirst (("etv").data) link.data = none →
      extract_video_url (some page) = none) ∧
    (∀ (page : VideoPage) (player : PlayerEl) (link : String) (pre post : List Char),
      page.player = some player → player.dataMp4Link = some link →
      splitFirst (("etv").data) link.data = some (pre, post) →
      link.data = pre ++ ("etv").data ++ post ∧
      extract_video_url (some page) =
        some (String.mk ((("https://cdn1.einthusan.io/").data) ++ ("etv").data ++ post))) := by
  refine ⟨rfl, ?_, ?_, ?_, ?_⟩
  · intro page hp
    simp [extract_video_url, hp]
  · intro page player hp hl
    simp [extract_video_url, hp, hl]
  · intro page player link hp hl hsplit
    by_cases hlk : link = ""
    · simp [extract_video_url, hp, hl, hlk]
    · simp [extract_video_url, hp, hl, hlk, hsplit]
  · intro page player link pre post hp hl hsplit
    have hdecomp := splitFirst_eq (("etv").data) link.data pre post hsplit
    have hlk : link ≠ "" := by
      intro hcontra
      rw [hcontra] at hdecomp
      simp at hdecomp
    refine ⟨hdecomp, ?_⟩
    have hcdn : ("https://cdn1.einthusan.io/etv").data =
        ("https://cdn1.einthusan.io/").data ++ ("etv").data := by decide
    simp [extract_video_url, hp, hl, hlk, hsplit, hcdn]

/-- Claim C4 witness: a concrete attribute containing "etv". -/
theorem extract_video_url_spec_witness :
    (("https://x/etv/a.mp4").data =
      ("https://x/").data ++ ("etv").data ++ ("/a.mp4").data) ∧
    extract_video_url (some { player := some { dataMp4Link := some ("https://x/etv/a.mp4") } }) =
      some (String.mk ((("https://cdn1.einthusan.io/").data) ++ ("etv").data ++ ("/a.mp4").data)) :=
  extract_video_url_spec.2.2.2.2
    { player := some { dataMp4Link := some ("https://x/etv/a.mp4") } }
    { dataMp4Link := some ("https://x/etv/a.mp4") }
    ("https://x/etv/a.mp4") (("https://x/").data) (("/a.mp4").data)
    rfl rfl (by decide)

/-- Claim C7: `correct_spelling` lowercases its input; when it returns a
language it is a supported one that clears the three-stage 0.7 cutoff
gate and has the greatest similarity ratio among all candidates clearing
the gate; when it returns absent no candidate clears the gate; "tamill"
resolves to "tamil" and "xyzzy" to absent. -/
theorem correct_spelling_closest_match :
    (∀ (input : String) (l : String), correct_spelling input = some l →
      l ∈ LANG_OPTIONS ∧ clearsCutoff l ((pyLower input).data) = true ∧
      ∀ x ∈ LANG_OPTIONS, clearsCutoff x ((pyLower input).data) = true →
        ratioSM x.data ((pyLower input).data) ≤ ratioSM l.data ((pyLower input).data)) ∧
    (∀ input : String, correct_spelling input = none →
      ∀ x ∈ LANG_OPTIONS, clearsCutoff x ((pyLower input).data) = false) ∧
    correct_spelling ("tamill") = some ("tamil") ∧
    correct_spelling ("xyzzy") = none := by
  refine ⟨?_, ?_, by decide, by decide⟩
  · intro input l h
    unfold correct_spelling at h
    cases hsc : scoredList ((pyLower input).data) with
    | nil => rw [hsc] at h; simp at h
    | cons s rest =>
      rw [hsc] at h
      simp only [Option.some.injEq] at h
      obtain ⟨hmem, hbd⟩ := pickBest_spec rest s
      rcases hpb : pickBest s rest with ⟨br, bx⟩
      rw [hpb] at hmem hbd h
      subst h
      rw [← hsc] at hmem
      have hms := mem_scoredList.mp hmem
      refine ⟨hms.1, hms.2.1, ?_⟩
      intro x hx hcx
      have hxmem : (ratioSM x.data ((pyLower input).data), x) ∈
          scoredList ((pyLower input).data) := mem_scoredList.mpr ⟨hx, hcx, rfl⟩
      rw [hsc] at hxmem
      have hle := hbd (ratioSM x.data ((pyLower input).data), x) hxmem
      rw [hms.2.2] at hle
      exact hle
  · intro input h x hx
    unfold correct_spelling at h
    cases hsc : scoredList ((pyLower input).data) with
    | cons s rest => rw [hsc] at h; simp at h
    | nil =>
      cases hcc : clearsCutoff x ((pyLower input).data) with
      | false => rfl
      | true =>
        exfalso
        have hxmem : (ratioSM x.data ((pyLower input).data), x) ∈
            scoredList ((pyLower input).data) := mem_scoredList.mpr ⟨hx, hcc, rfl⟩
        rw [hsc] at hxmem
        simp at hxmem

/-- Claim C7 witness: the characterization applied at "tamill". -/
theorem correct_spelling_closest_match_witness :
    ("tamil") ∈ LANG_OPTIONS ∧
    clearsCutoff ("tamil") ((pyLower ("tamill")).data) = true ∧
    ∀ x ∈ LANG_OPTIONS, clearsCutoff x ((pyLower ("tamill")).data) = true →
      ratioSM x.data ((pyLower ("tamill")).data) ≤
        ratioSM (("tamil").data) ((pyLower ("tamill")).data) :=
  correct_spelling_closest_match.1 ("tamill") ("tamil") (by decide)

/-- Claim C8: every record `process_movie_block` produces has a
non-empty title; and whenever the fallback condition fires (no
qualifying candidate, or an accepted title shorter than 3 characters, or
one flagged by the Code Detector), the produced title is the result of
fetching the linked detail page and extracting a title there, with the
sentinel "Untitled Movie" when that also fails. -/
theorem process_movie_block_title_nonempty_fallback :
    ∀ (fetchDom : String → Option DomPage) (b : MovieBlock) (a : AnchorEl) (img : ImgEl)
      (r : MovieRecord),
      b.a = some a → b.img = some img →
      process_movie_block fetchDom b = some r →
      r.title ≠ "" ∧
      (fallbackNeeded b img = true →
        r.title = fallbackTitle fetchDom (("https://einthusan.tv") ++ a.href.getD "")) := by
  intro fetchDom b a img r ha hi hp
  simp only [process_movie_block, ha, hi] at hp
  have hr := (Option.some.inj hp).symm
  subst hr
  cases hf : fallbackNeeded b img with
  | true =>
    refine ⟨?_, ?_⟩
    · simp only [hf, if_true]
      exact fallbackTitle_ne_empty fetchDom _
    · intro _
      simp [hf]
  | false =>
    simp only [hf, if_false]
    cases hsel : selectTitle (candTexts b img) with
    | none =>
      exfalso
      rw [fallbackNeeded, hsel] at hf
      simp at hf
    | some t =>
      simp only [hsel, Option.getD_some]
      exact ⟨(selectTitle_some hsel).1, fun hcontra => absurd hcontra (by simp)⟩

/-- Claim C8 witness: a block whose candidate title qualifies, applied
to the theorem. -/
theorem process_movie_block_title_nonempty_fallback_witness :
    ({ title := ("Good Movie"), img_url := "",
       page_url := ("https://einthusan.tv/movie/x") } : MovieRecord).title ≠ "" :=
  (process_movie_block_title_nonempty_fallback (fun _ => none)
    { a := some { href := some ("/movie/x") },
      img := some { alt := some ("Good Movie"), title := none, src := none,
                    dataSrc := none, dataOriginal := none },
      titleDiv := none }
    { href := some ("/movie/x") }
    { alt := some ("Good Movie"), title := none, src := none,
      dataSrc := none, dataOriginal := none }
    { title := ("Good Movie"), img_url := "",
      page_url := ("https://einthusan.tv/movie/x") }
    rfl rfl (by decide)).1

/-- Claim C9: `process_movie_block` skips a block (produces no record)
exactly when the block lacks its link element or its image element, and
the listing parse produces exactly one record per block that has both. -/
theorem process_movie_block_skip_iff :
    ∀ fetchDom : String → Option DomPage,
      (∀ b : MovieBlock,
        process_movie_block fetchDom b = none ↔ (b.a = none ∨ b.img = none)) ∧
      (∀ blocks : List MovieBlock,
        (fetch_movies_by_url fetchDom (some blocks)).length =
          (blocks.filter (fun b => b.a.isSome && b.img.isSome)).length) := by
  intro fetchDom
  have hiff : ∀ b : MovieBlock,
      process_movie_block fetchDom b = none ↔ (b.a = none ∨ b.img = none) := by
    intro b
    rcases hb : b.a with _ | a <;> rcases hi : b.img with _ | img <;>
      simp [process_movie_block, hb, hi]
  refine ⟨hiff, ?_⟩
  intro blocks
  show (blocks.filterMap (process_movie_block fetchDom)).length = _
  induction blocks with
  | nil => rfl
  | cons b bs ih =>
    rcases hb : b.a with _ | a
    · have hn : process_movie_block fetchDom b = none := (hiff b).mpr (Or.inl hb)
      simp [List.filterMap_cons, hn, List.filter_cons, hb, ih]
    · rcases hi : b.img with _ | img
      · have hn : process_movie_block fetchDom b = none := (hiff b).mpr (Or.inr hi)
        simp [List.filterMap_cons, hn, List.filter_cons, hb, hi, ih]
      · have hs : process_movie_block fetchDom b ≠ none := by
          intro hcontra
          rcases (hiff b).mp hcontra with hh | hh
          · rw [hb] at hh
            simp at hh
          · rw [hi] at hh
            simp at hh
        cases hp : process_movie_block fetchDom b with
        | none => exact absurd hp hs
        | some r => simp [List.filterMap_cons, hp, List.filter_cons, hb, hi, ih]

/-- Claim C9 witness: a block with no link element yields no record. -/
theorem process_movie_block_skip_iff_witness :
    process_movie_block (fun _ => none) { a := none, img := none, titleDiv := none } = none :=
  ((process_movie_block_skip_iff (fun _ => none)).1
    { a := none, img := none, titleDiv := none }).mpr (Or.inl rfl)
